import Mathlib

/-!
Verification of the parcel-pilot-server delivery backend (`src/index.js` and the
near-duplicate variants under `src/unnamed/`).  The route handlers are embedded
shallowly: MongoDB documents become association lists of fields, the five
collections become lists inside a `Store`, and each Express handler becomes a
pure function from its request data and the current store to the next store and
a response.  Server clock reads (`new Date()`) become an explicit `now : Nat`
argument.
-/

namespace ParcelPilot

/-- Document ids (`ObjectId` in the source) are modelled as naturals; a request
id is always a structurally valid id, the hex-string parse being part of the
transport layer. -/
abbrev ObjectId := Nat

/-- A JSON/BSON field value as the handlers use them: strings, integers,
server-clock instants (`new Date()` and its string renderings), ids, null. -/
inductive Val where
  | str (s : String)
  | num (n : Int)
  | time (t : Nat)
  | oid (i : ObjectId)
  | null
deriving DecidableEq, Repr

/-- A document is an ordered association list of named fields, matching the
schema-less bodies the handlers write verbatim. -/
abbrev Doc := List (String × Val)

/-- Field lookup: first occurrence of the key, `none` when absent. -/
def getField : Doc → String → Option Val
  | [], _ => none
  | (k', v) :: rest, k => if k' = k then some v else getField rest k

/-- Field write, as both the JS object spread `{...d, k: v}` and Mongo `$set`
behave for our documents: overwrite the first occurrence in place, or append
the field when absent. -/
def setField : Doc → String → Val → Doc
  | [], k, v => [(k, v)]
  | (k', v') :: rest, k, v =>
    if k' = k then (k, v) :: rest else (k', v') :: setField rest k v

/-- Apply a `$set` update document (a list of field writes, left to right). -/
def setFields (d : Doc) (us : List (String × Val)) : Doc :=
  us.foldl (fun acc kv => setField acc kv.1 kv.2) d

/-- JavaScript falsiness of a field value (`!x` in the handlers). -/
def falsy : Val → Bool
  | .null => true
  | .str s => s = ""
  | .num n => n = 0
  | _ => false

/-- Truthiness of an optional field, as `obj.field` tests in the source. -/
def truthy : Option Val → Bool
  | none => false
  | some v => !falsy v

/-- JavaScript `v || dflt` on an optional field. -/
def jsOr (v : Option Val) (dflt : Val) : Val :=
  match v with
  | none => dflt
  | some x => if falsy x then dflt else x

/-- Does a `$set` update change the document?  Mongo reports `modifiedCount = 0`
when every written field already holds the written value. -/
def changesDoc (d : Doc) (us : List (String × Val)) : Bool :=
  us.any (fun kv => getField d kv.1 != some kv.2)

/-- Result of a Mongo `updateOne` on an id-keyed collection. -/
structure UpdResult where
  docs : List (ObjectId × Doc)
  matched : Nat
  modified : Nat
deriving DecidableEq, Repr

/-- `updateOne({_id: i}, {$set: us})`: update the first document with id `i`. -/
def updateById : List (ObjectId × Doc) → ObjectId → List (String × Val) → UpdResult
  | [], _, _ => ⟨[], 0, 0⟩
  | (j, d) :: rest, i, us =>
    if j = i then
      ⟨(j, setFields d us) :: rest, 1, if changesDoc d us then 1 else 0⟩
    else
      ⟨(j, d) :: (updateById rest i us).docs,
       (updateById rest i us).matched, (updateById rest i us).modified⟩

/-- `findOne({_id: i})` on an id-keyed collection. -/
def findDoc : List (ObjectId × Doc) → ObjectId → Option Doc
  | [], _ => none
  | (j, d) :: rest, i => if j = i then some d else findDoc rest i

/-- `deleteOne({_id: i})`: remove the first document with id `i`, returning the
remaining collection and the `deletedCount`. -/
def deleteById : List (ObjectId × Doc) → ObjectId → List (ObjectId × Doc) × Nat
  | [], _ => ([], 0)
  | (j, d) :: rest, i =>
    if j = i then (rest, 1)
    else ((j, d) :: (deleteById rest i).1, (deleteById rest i).2)

/-- `updateOne(filter, {$set: us})` on an unkeyed collection: update the first
document satisfying the filter. -/
def updateFirst : List Doc → (Doc → Bool) → List (String × Val) → List Doc
  | [], _, _ => []
  | d :: rest, p, us =>
    if p d then setFields d us :: rest else d :: updateFirst rest p us

/-- Exact-match email filter `{email}`. -/
def emailEq (d : Doc) (email : String) : Bool :=
  getField d "email" == some (.str email)

/-- ASCII lower-casing of one character, the case folding the `i` regex
option performs on these email strings. -/
def lowerChar (c : Char) : Char :=
  if c.isUpper then Char.ofNat (c.toNat + 32) else c

/-- Case-insensitive string equality. -/
def eqIgnoreCase (a b : String) : Bool :=
  a.data.map lowerChar == b.data.map lowerChar

/-- Case-insensitive exact email filter, the regex
`{$regex: ^email$, $options: i}` of `GET /users/:email/role`. -/
def emailEqCI (d : Doc) (email : String) : Bool :=
  match getField d "email" with
  | some (.str e) => eqIgnoreCase e email
  | _ => false

/-- The five collections of `parcelDB` plus the id source for inserts. -/
structure Store where
  parcels : List (ObjectId × Doc)
  payments : List Doc
  users : List Doc
  riders : List (ObjectId × Doc)
  trackings : List Doc
  nextId : ObjectId
deriving DecidableEq, Repr

/-- The response shapes the embedded handlers produce. -/
inductive Resp where
  | doc (d : Doc)
  | created (i : ObjectId)
  | paymentOk
  | riderAssigned
  | inserted
  | roleOk (v : Val)
  | deleted
  | updResult (matched modified : Nat)
  | badRequest (msg : String)
  | notFound (msg : String)
deriving DecidableEq, Repr

/-- Store writes a payment handler performs, in execution order. -/
inductive Op where
  | updateParcel (i : ObjectId)
  | insertPayment
deriving DecidableEq, Repr

/-- POST /parcels (src/index.js lines 455-464): insert the request body with a
server-set `createdAt` (`{...req.body, createdAt: new Date()}`), answering the
inserted id. -/
def createParcel (body : Doc) (now : Nat) (s : Store) : Store × Resp :=
  let d := setField body "createdAt" (.time now)
  ({ s with parcels := s.parcels ++ [(s.nextId, d)], nextId := s.nextId + 1 },
   .created s.nextId)

/-- GET /parcels/:id (src/index.js lines 385-394): `findOne` by id, 404 when
absent. -/
def getParcel (pid : ObjectId) (s : Store) : Resp :=
  match findDoc s.parcels pid with
  | none => .notFound "Parcel not found"
  | some d => .doc d

/-- DELETE /parcels/:id (src/index.js lines 541-553): `deleteOne` by id; the
message depends on `deletedCount`. -/
def deleteParcel (pid : ObjectId) (s : Store) : Store × Resp :=
  ({ s with parcels := (deleteById s.parcels pid).1 },
   if (deleteById s.parcels pid).2 > 0 then .deleted
   else .notFound "Parcel not found")

/-- The payment document POST /payments inserts (src/index.js lines 147-156);
`paid_at_string` is the locale rendering of the same server instant. -/
def paymentDoc (pid : ObjectId) (userEmail userName : String) (amount : Int)
    (transactionId paymentMethod : String) (now : Nat) : Doc :=
  [("parcelId", .oid pid), ("email", .str userEmail), ("userName", .str userName),
   ("amount", .num amount), ("paymentMethod", .str paymentMethod),
   ("transactionId", .str transactionId), ("paid_at", .time now),
   ("paid_at_string", .str (toString now))]

/-- POST /payments, checked variant (src/index.js lines 132-168): first
`updateOne` the parcel's `payment_status` to `paid`; if `modifiedCount` is 0,
answer 404 and stop; otherwise insert the payment record.  The returned `Op`
list records the collection writes in execution order. -/
def recordPayment (pid : ObjectId) (userEmail userName : String) (amount : Int)
    (transactionId paymentMethod : String) (now : Nat) (s : Store) :
    Store × Resp × List Op :=
  let u := updateById s.parcels pid [("payment_status", .str "paid")]
  if u.modified = 0 then
    ({ s with parcels := u.docs },
     .notFound "Parcel not found or already paid", [.updateParcel pid])
  else
    ({ s with
        parcels := u.docs
        payments := s.payments ++
          [paymentDoc pid userEmail userName amount transactionId paymentMethod now] },
     .paymentOk, [.updateParcel pid, .insertPayment])

/-- PATCH /parcels/:id/assign (src/index.js lines 466-499): `$set` the parcel's
status and denormalized rider identity, then `$set` the rider's `work_status`. -/
def assignRider (pid riderId : ObjectId) (riderName riderEmail : String)
    (s : Store) : Store × Resp :=
  let up := updateById s.parcels pid
    [("delivery_status", .str "rider_assigned"),
     ("assigned_rider_id", .oid riderId),
     ("assigned_rider_email", .str riderEmail),
     ("assigned_rider_name", .str riderName)]
  let ur := updateById s.riders riderId [("work_status", .str "in_delivery")]
  ({ s with parcels := up.docs, riders := ur.docs }, .riderAssigned)

/-- PATCH /parcels/:id/status (src/index.js lines 501-525): `$set`
`delivery_status` unconditionally; `in_transit` also stamps `picked_at` and
`delivered` also stamps `delivered_at` with the server clock. -/
def updateDeliveryStatus (pid : ObjectId) (status : String) (now : Nat)
    (s : Store) : Store × Resp :=
  let upd :=
    if status = "in_transit" then
      [("delivery_status", .str status), ("picked_at", .time now)]
    else if status = "delivered" then
      [("delivery_status", .str status), ("delivered_at", .time now)]
    else
      [("delivery_status", .str status)]
  let u := updateById s.parcels pid upd
  ({ s with parcels := u.docs }, .updResult u.matched u.modified)

/-- PATCH /riders/:id/status (src/index.js lines 660-673): `$set` the rider's
`status`; when the new status is `active`, additionally `updateOne` the user
matching `{email}` to role `rider`. -/
def setRiderStatus (rid : ObjectId) (status email : String) (s : Store) :
    Store × Resp :=
  let ur := updateById s.riders rid [("status", .str status)]
  let users' :=
    if status = "active" then
      updateFirst s.users (fun d => emailEq d email) [("role", .str "rider")]
    else s.users
  ({ s with riders := ur.docs, users := users' },
   .updResult ur.matched ur.modified)

/-- GET /users/:email/role (src/index.js lines 292-306): `findOne` by
case-insensitive exact email; 404 when absent, else `{role: user.role || "user"}`. -/
def getRole (email : String) (s : Store) : Resp :=
  match s.users.find? (fun d => emailEqCI d email) with
  | none => .notFound "User not found"
  | some u => .roleOk (jsOr (getField u "role") (.str "user"))

/-- POST /trackings (src/index.js lines 581-591): stamp `timestamp` with the
server clock, reject when `tracking_id` or `status` is falsy, else insert. -/
def appendTracking (body : Doc) (now : Nat) (s : Store) : Store × Resp :=
  let b := setField body "timestamp" (.time now)
  if !truthy (getField b "tracking_id") || !truthy (getField b "status") then
    (s, .badRequest "tracking_id and status are required.")
  else
    ({ s with trackings := s.trackings ++ [b] }, .inserted)

/-- Sort key of the tracking trail: the server-stamped `timestamp` field. -/
def timeOf (d : Doc) : Nat :=
  match getField d "timestamp" with
  | some (.time t) => t
  | _ => 0

/-- Non-decreasing `timestamp` order between two tracking events. -/
def timeLE (a b : Doc) : Prop :=
  timeOf a ≤ timeOf b

/-- Insert one event into a trail already ascending by `timestamp`. -/
def insertByTime (d : Doc) : List Doc → List Doc
  | [] => [d]
  | e :: rest =>
    if timeOf d ≤ timeOf e then d :: e :: rest else e :: insertByTime d rest

/-- The ascending-`timestamp` sort `.sort({timestamp: 1})` applies on read. -/
def sortByTime : List Doc → List Doc
  | [] => []
  | d :: rest => insertByTime d (sortByTime rest)

/-- Exact-match filter `{tracking_id: tid}`. -/
def tidEq (d : Doc) (tid : String) : Bool :=
  getField d "tracking_id" == some (.str tid)

/-- The events `find({tracking_id: tid})` selects, in insertion order. -/
def matchingEvents (tid : String) (s : Store) : List Doc :=
  s.trackings.filter (fun d => tidEq d tid)

/-- GET /trackings/:trackingId (src/index.js lines 570-579): all events with
the given `tracking_id`, ascending by `timestamp`. -/
def getTrail (tid : String) (s : Store) : List Doc :=
  sortByTime (matchingEvents tid s)

/-- Field of the (first) parcel with the given id, after a lookup. -/
def parcelField (s : Store) (pid : ObjectId) (k : String) : Option Val :=
  (findDoc s.parcels pid).bind (fun d => getField d k)

/-- Field of the (first) rider with the given id. -/
def riderField (s : Store) (rid : ObjectId) (k : String) : Option Val :=
  (findDoc s.riders rid).bind (fun d => getField d k)

/-- Role field of the first user whose `email` field equals `email`. -/
def userRole (s : Store) (email : String) : Option Val :=
  (s.users.find? (fun d => emailEq d email)).bind (fun d => getField d "role")

theorem getField_setField_self (d : Doc) (k : String) (v : Val) :
    getField (setField d k v) k = some v := by
  induction d with
  | nil => simp [setField, getField]
  | cons hd tl ih =>
    obtain ⟨k', v'⟩ := hd
    by_cases h : k' = k
    · subst h; simp [setField, getField]
    · simp [setField, getField, h, ih]

theorem getField_setField_ne (d : Doc) (k k' : String) (v : Val)
    (h : k' ≠ k) : getField (setField d k v) k' = getField d k' := by
  have h' : k ≠ k' := Ne.symm h
  induction d with
  | nil => simp [setField, getField, h']
  | cons hd tl ih =>
    obtain ⟨k₀, v₀⟩ := hd
    by_cases h₀ : k₀ = k
    · subst h₀
      simp [setField, getField, h']
    · simp [setField, getField, h₀, ih]

theorem getField_of_mem_nodup (d : Doc) (k : String) (v : Val)
    (hnd : (d.map Prod.fst).Nodup) (h : (k, v) ∈ d) :
    getField d k = some v := by
  induction d with
  | nil => cases h
  | cons hd tl ih =>
    obtain ⟨k₀, v₀⟩ := hd
    rcases List.mem_cons.mp h with heq | htl
    · cases heq; simp [getField]
    · have hk : k₀ ≠ k := by
        intro hkk
        subst hkk
        exact (List.nodup_cons.mp hnd).1
          (List.mem_map.mpr ⟨(k₀, v), htl, rfl⟩)
      simp [getField, hk]
      exact ih (List.nodup_cons.mp hnd).2 htl

theorem findDoc_append_fresh (l : List (ObjectId × Doc)) (i : ObjectId)
    (d : Doc) (h : ∀ p ∈ l, p.1 ≠ i) :
    findDoc (l ++ [(i, d)]) i = some d := by
  induction l with
  | nil => simp [findDoc]
  | cons hd tl ih =>
    obtain ⟨j, e⟩ := hd
    have hj : j ≠ i := h (j, e) (List.mem_cons_self _ _)
    simp only [List.cons_append, findDoc, hj, if_false]
    exact ih (fun p hp => h p (List.mem_cons_of_mem _ hp))

theorem updateById_of_findDoc_none (l : List (ObjectId × Doc)) (i : ObjectId)
    (us : List (String × Val)) (h : findDoc l i = none) :
    updateById l i us = ⟨l, 0, 0⟩ := by
  induction l with
  | nil => rfl
  | cons hd tl ih =>
    obtain ⟨j, d⟩ := hd
    by_cases hj : j = i
    · subst hj; simp [findDoc] at h
    · simp only [findDoc, hj, if_false] at h
      simp [updateById, hj, ih h]

theorem findDoc_updateById (l : List (ObjectId × Doc)) (i : ObjectId)
    (us : List (String × Val)) (d : Doc) (h : findDoc l i = some d) :
    findDoc (updateById l i us).docs i = some (setFields d us) := by
  induction l with
  | nil => simp [findDoc] at h
  | cons hd tl ih =>
    obtain ⟨j, e⟩ := hd
    by_cases hj : j = i
    · subst hj
      simp only [findDoc, if_true, eq_self_iff_true, Option.some.injEq] at h
      subst h
      simp [updateById, findDoc]
    · simp only [findDoc, hj, if_false] at h
      simp [updateById, findDoc, hj, ih h]

theorem modified_updateById (l : List (ObjectId × Doc)) (i : ObjectId)
    (us : List (String × Val)) (d : Doc) (h : findDoc l i = some d) :
    (updateById l i us).modified = if changesDoc d us then 1 else 0 := by
  induction l with
  | nil => simp [findDoc] at h
  | cons hd tl ih =>
    obtain ⟨j, e⟩ := hd
    by_cases hj : j = i
    · subst hj
      simp only [findDoc, if_true, eq_self_iff_true, Option.some.injEq] at h
      subst h
      simp [updateById]
    · simp only [findDoc, hj, if_false] at h
      simp [updateById, hj, ih h]

theorem deleteById_of_absent (l : List (ObjectId × Doc)) (i : ObjectId)
    (h : ∀ p ∈ l, p.1 ≠ i) : deleteById l i = (l, 0) := by
  induction l with
  | nil => rfl
  | cons hd tl ih =>
    obtain ⟨j, d⟩ := hd
    have hj : j ≠ i := h (j, d) (List.mem_cons_self _ _)
    have htl := ih (fun p hp => h p (List.mem_cons_of_mem _ hp))
    simp [deleteById, hj, htl]

theorem find?_updateFirst (l : List Doc) (p : Doc → Bool)
    (us : List (String × Val)) (u : Doc) (h : l.find? p = some u)
    (hp : ∀ d, p d = true → p (setFields d us) = true) :
    (updateFirst l p us).find? p = some (setFields u us) := by
  induction l with
  | nil => simp [List.find?] at h
  | cons d tl ih =>
    by_cases hd : p d = true
    · rw [List.find?_cons_of_pos _ hd] at h
      cases h
      simp [updateFirst, hd, List.find?_cons_of_pos _ (hp u hd)]
    · have hd' : p d = false := by
        cases hpd : p d
        · rfl
        · exact absurd hpd hd
      rw [List.find?_cons_of_neg _ (by simp [hd'])] at h
      simp [updateFirst, hd', List.find?_cons_of_neg, ih h]

theorem perm_insertByTime (d : Doc) (l : List Doc) :
    (insertByTime d l).Perm (d :: l) := by
  induction l with
  | nil => exact List.Perm.refl _
  | cons e rest ih =>
    by_cases h : timeOf d ≤ timeOf e
    · simp [insertByTime, h]
    · simp only [insertByTime, h, if_false]
      exact (ih.cons e).trans (List.Perm.swap d e rest)

theorem perm_sortByTime (l : List Doc) : (sortByTime l).Perm l := by
  induction l with
  | nil => exact List.Perm.refl _
  | cons d rest ih =>
    exact (perm_insertByTime d (sortByTime rest)).trans (ih.cons d)

theorem pairwise_insertByTime (d : Doc) (l : List Doc)
    (h : l.Pairwise timeLE) : (insertByTime d l).Pairwise timeLE := by
  induction l with
  | nil => simp [insertByTime]
  | cons e rest ih =>
    rcases List.pairwise_cons.mp h with ⟨he, hrest⟩
    by_cases hde : timeOf d ≤ timeOf e
    · simp only [insertByTime, hde, if_true]
      refine List.pairwise_cons.mpr ⟨?_, h⟩
      intro x hx
      rcases List.mem_cons.mp hx with rfl | hx'
      · exact hde
      · exact Nat.le_trans hde (he x hx')
    · simp only [insertByTime, hde, if_false]
      refine List.pairwise_cons.mpr ⟨?_, ih hrest⟩
      intro x hx
      rcases List.mem_cons.mp ((perm_insertByTime d rest).mem_iff.mp hx)
        with rfl | hx'
      · exact Nat.le_of_not_le hde
      · exact he x hx'

theorem pairwise_sortByTime (l : List Doc) :
    (sortByTime l).Pairwise timeLE := by
  induction l with
  | nil => simp [sortByTime]
  | cons d rest ih => exact pairwise_insertByTime d (sortByTime rest) ih

/-- Claim C1: for every parcel P present in the store, a successful
recordPayment (POST /payments) for P leaves P's `payment_status` equal to
"paid" and the payment record referencing P in the payments collection, the
parcel update being performed before the payment insert (the `Op` trace). -/
theorem claim_c1_recordPayment (s : Store) (pid : ObjectId)
    (ue un : String) (amt : Int) (txn pm : String) (now : Nat) (d : Doc)
    (hp : findDoc s.parcels pid = some d)
    (hs : (recordPayment pid ue un amt txn pm now s).2.1 = .paymentOk) :
    parcelField (recordPayment pid ue un amt txn pm now s).1 pid
      "payment_status" = some (.str "paid") ∧
    paymentDoc pid ue un amt txn pm now ∈
      (recordPayment pid ue un amt txn pm now s).1.payments ∧
    getField (paymentDoc pid ue un amt txn pm now) "parcelId"
      = some (.oid pid) ∧
    (recordPayment pid ue un amt txn pm now s).2.2 =
      [.updateParcel pid, .insertPayment] := by
  have hfind := findDoc_updateById s.parcels pid
    [("payment_status", Val.str "paid")] d hp
  by_cases hm :
      (updateById s.parcels pid [("payment_status", Val.str "paid")]).modified
        = 0
  · exfalso
    simp [recordPayment, hm] at hs
  · refine ⟨?_, ?_, ?_, ?_⟩
    · simp only [recordPayment, hm, if_false, parcelField]
      rw [hfind]
      exact getField_setField_self d "payment_status" (.str "paid")
    · simp only [recordPayment, hm, if_false]
      exact List.mem_append_right _ (List.mem_singleton_self _)
    · simp [paymentDoc, getField]
    · simp [recordPayment, hm]

/-- Claim C9: in the checked POST /payments variant, when the parcelId matches
no parcel or matches one already marked "paid", the update modifies nothing,
the handler answers not-found, and the payments collection is unchanged. -/
theorem claim_c9_payment_notFound (s : Store) (pid : ObjectId)
    (ue un : String) (amt : Int) (txn pm : String) (now : Nat)
    (h : findDoc s.parcels pid = none ∨
      ∃ d, findDoc s.parcels pid = some d ∧
        getField d "payment_status" = some (.str "paid")) :
    (recordPayment pid ue un amt txn pm now s).2.1 =
      .notFound "Parcel not found or already paid" ∧
    (recordPayment pid ue un amt txn pm now s).1.payments = s.payments := by
  have hm :
      (updateById s.parcels pid [("payment_status", Val.str "paid")]).modified
        = 0 := by
    rcases h with hnone | ⟨d, hd, hps⟩
    · rw [updateById_of_findDoc_none _ _ _ hnone]
    · rw [modified_updateById _ _ _ _ hd]
      have hc : changesDoc d [("payment_status", Val.str "paid")] = false := by
        simp [changesDoc, hps]
      simp [hc]
  constructor
  · simp [recordPayment, hm]
  · simp [recordPayment, hm]

/-- Claim C3: PATCH /parcels/:id/status sets the parcel's `delivery_status` to
the given string whatever the current status is (no transition validation),
stamping `picked_at` when the status is "in_transit" and `delivered_at` when it
is "delivered". -/
theorem claim_c3_updateDeliveryStatus (s : Store) (pid : ObjectId)
    (status : String) (now : Nat) (d : Doc)
    (hp : findDoc s.parcels pid = some d) :
    parcelField (updateDeliveryStatus pid status now s).1 pid
      "delivery_status" = some (.str status) ∧
    (status = "in_transit" →
      parcelField (updateDeliveryStatus pid status now s).1 pid "picked_at"
        = some (.time now)) ∧
    (status = "delivered" →
      parcelField (updateDeliveryStatus pid status now s).1 pid "delivered_at"
        = some (.time now)) := by
  by_cases h1 : status = "in_transit"
  · subst h1
    have hf := findDoc_updateById s.parcels pid
      [("delivery_status", Val.str "in_transit"), ("picked_at", Val.time now)]
      d hp
    refine ⟨?_, fun _ => ?_, fun hh => absurd hh (by decide)⟩
    · simp only [updateDeliveryStatus, if_true, eq_self_iff_true, parcelField]
      rw [hf]
      show getField
        (setField (setField d "delivery_status" (.str "in_transit"))
          "picked_at" (.time now)) "delivery_status" = _
      rw [getField_setField_ne _ _ _ _ (by decide)]
      exact getField_setField_self _ _ _
    · simp only [updateDeliveryStatus, if_true, eq_self_iff_true, parcelField]
      rw [hf]
      exact getField_setField_self _ _ _
  · by_cases h2 : status = "delivered"
    · subst h2
      have hf := findDoc_updateById s.parcels pid
        [("delivery_status", Val.str "delivered"),
         ("delivered_at", Val.time now)] d hp
      refine ⟨?_, fun hh => absurd hh (by decide), fun _ => ?_⟩
      · simp only [updateDeliveryStatus, parcelField, if_true,
          eq_self_iff_true, if_false, h1]
        rw [hf]
        show getField
          (setField (setField d "delivery_status" (.str "delivered"))
            "delivered_at" (.time now)) "delivery_status" = _
        rw [getField_setField_ne _ _ _ _ (by decide)]
        exact getField_setField_self _ _ _
      · simp only [updateDeliveryStatus, parcelField, if_true,
          eq_self_iff_true, if_false, h1]
        rw [hf]
        exact getField_setField_self _ _ _
    · have hf := findDoc_updateById s.parcels pid
        [("delivery_status", Val.str status)] d hp
      refine ⟨?_, fun hh => absurd hh h1, fun hh => absurd hh h2⟩
      simp only [updateDeliveryStatus, parcelField, h1, h2, if_false]
      rw [hf]
      exact getField_setField_self _ _ _

/-- Claim C2: for a parcel P and rider R both present, PATCH
/parcels/:id/assign sets P's `delivery_status` to "rider_assigned",
denormalizes the rider's id, email and name onto P, and sets R's `work_status`
to "in_delivery". -/
theorem claim_c2_assignRider (s : Store) (pid rid : ObjectId)
    (rname remail : String) (dp dr : Doc)
    (hp : findDoc s.parcels pid = some dp)
    (hr : findDoc s.riders rid = some dr) :
    parcelField (assignRider pid rid rname remail s).1 pid "delivery_status"
      = some (.str "rider_assigned") ∧
    parcelField (assignRider pid rid rname remail s).1 pid "assigned_rider_id"
      = some (.oid rid) ∧
    parcelField (assignRider pid rid rname remail s).1 pid
      "assigned_rider_email" = some (.str remail) ∧
    parcelField (assignRider pid rid rname remail s).1 pid
      "assigned_rider_name" = some (.str rname) ∧
    riderField (assignRider pid rid rname remail s).1 rid "work_status"
      = some (.str "in_delivery") := by
  have hf := findDoc_updateById s.parcels pid
    [("delivery_status", Val.str "rider_assigned"),
     ("assigned_rider_id", Val.oid rid),
     ("assigned_rider_email", Val.str remail),
     ("assigned_rider_name", Val.str rname)] dp hp
  have hfr := findDoc_updateById s.riders rid
    [("work_status", Val.str "in_delivery")] dr hr
  have hbody : setFields dp
      [("delivery_status", Val.str "rider_assigned"),
       ("assigned_rider_id", Val.oid rid),
       ("assigned_rider_email", Val.str remail),
       ("assigned_rider_name", Val.str rname)] =
      setField (setField (setField (setField dp
        "delivery_status" (.str "rider_assigned"))
        "assigned_rider_id" (.oid rid))
        "assigned_rider_email" (.str remail))
        "assigned_rider_name" (.str rname) := rfl
  refine ⟨?_, ?_, ?_, ?_, ?_⟩
  · simp only [assignRider, parcelField]
    rw [hf, hbody]
    simp only [Option.some_bind]
    rw [getField_setField_ne _ _ _ _ (by decide),
      getField_setField_ne _ _ _ _ (by decide),
      getField_setField_ne _ _ _ _ (by decide)]
    exact getField_setField_self _ _ _
  · simp only [assignRider, parcelField]
    rw [hf, hbody]
    simp only [Option.some_bind]
    rw [getField_setField_ne _ _ _ _ (by decide),
      getField_setField_ne _ _ _ _ (by decide)]
    exact getField_setField_self _ _ _
  · simp only [assignRider, parcelField]
    rw [hf, hbody]
    simp only [Option.some_bind]
    rw [getField_setField_ne _ _ _ _ (by decide)]
    exact getField_setField_self _ _ _
  · simp only [assignRider, parcelField]
    rw [hf, hbody]
    simp only [Option.some_bind]
    exact getField_setField_self _ _ _
  · simp only [assignRider, riderField]
    rw [hfr]
    simp only [Option.some_bind]
    exact getField_setField_self _ _ _

/-- Claim C4: PATCH /riders/:id/status with status "active" sets the rider's
`status` to "active" and cascades role "rider" onto the user record matching
the given email; any other status leaves the users collection untouched. -/
theorem claim_c4_setRiderStatus (s : Store) (rid : ObjectId) (email : String)
    (dr u : Doc)
    (hr : findDoc s.riders rid = some dr)
    (hu : s.users.find? (fun d => emailEq d email) = some u) :
    riderField (setRiderStatus rid "active" email s).1 rid "status"
      = some (.str "active") ∧
    userRole (setRiderStatus rid "active" email s).1 email
      = some (.str "rider") ∧
    ∀ st : String, st ≠ "active" →
      ((setRiderStatus rid st email s).1).users = s.users := by
  have hfr := findDoc_updateById s.riders rid
    [("status", Val.str "active")] dr hr
  have hpres : ∀ d : Doc, emailEq d email = true →
      emailEq (setFields d [("role", Val.str "rider")]) email = true := by
    intro d hd
    unfold emailEq at hd ⊢
    rwa [show setFields d [("role", Val.str "rider")]
        = setField d "role" (Val.str "rider") from rfl,
      getField_setField_ne _ _ _ _ (by decide)]
  have hfu := find?_updateFirst s.users (fun d => emailEq d email)
    [("role", Val.str "rider")] u hu hpres
  refine ⟨?_, ?_, ?_⟩
  · simp only [setRiderStatus, riderField]
    rw [hfr]
    simp only [Option.some_bind]
    exact getField_setField_self _ _ _
  · simp only [setRiderStatus, userRole, if_true, eq_self_iff_true]
    rw [hfu]
    simp only [Option.some_bind]
    exact getField_setField_self _ _ _
  · intro st hst
    simp [setRiderStatus, hst]

/-- Claim C7: DELETE /parcels/:id on an id matching no parcel answers the
not-found signal without error, and a second delete of the same id again
answers not-found and leaves the store unchanged. -/
theorem claim_c7_deleteParcel (s : Store) (pid : ObjectId)
    (h : ∀ p ∈ s.parcels, p.1 ≠ pid) :
    deleteParcel pid s = (s, .notFound "Parcel not found") ∧
    deleteParcel pid (deleteParcel pid s).1
      = (s, .notFound "Parcel not found") := by
  have hd := deleteById_of_absent s.parcels pid h
  have h1 : deleteParcel pid s = (s, .notFound "Parcel not found") := by
    simp [deleteParcel, hd]
  refine ⟨h1, ?_⟩
  rw [h1]
  exact h1

/-- Claim C8: GET /users/:email/role answers role "user" when the matching
user record exists without a `role` field, and answers some role string
whenever the matching user's stored role is a string. -/
theorem claim_c8_getRole (email : String) (s : Store) (u : Doc)
    (hu : s.users.find? (fun d => emailEqCI d email) = some u) :
    (getField u "role" = none → getRole email s = .roleOk (.str "user")) ∧
    (∀ t : String, getField u "role" = some (.str t) →
      (t = "" → getRole email s = .roleOk (.str "user")) ∧
      (t ≠ "" → getRole email s = .roleOk (.str t))) := by
  constructor
  · intro hnone
    simp [getRole, hu, hnone, jsOr]
  · intro t ht
    constructor
    · intro he
      subst he
      simp [getRole, hu, ht, jsOr, falsy]
    · intro he
      simp [getRole, hu, ht, jsOr, falsy, he]

/-- Claim C6: GET /trackings/:trackingId answers exactly the events recorded
for that tracking id, in non-decreasing order of their server-stamped
`timestamp` field, and answers the empty sequence (not an error) when no event
matches. -/
theorem claim_c6_getTrail (tid : String) (s : Store) :
    (getTrail tid s).Pairwise timeLE ∧
    (getTrail tid s).Perm (matchingEvents tid s) ∧
    (matchingEvents tid s = [] → getTrail tid s = []) := by
  refine ⟨pairwise_sortByTime _, perm_sortByTime _, ?_⟩
  intro h
  rw [getTrail, h]
  rfl

/-- A creation payload that carries its own `createdAt` field. -/
def cBody : Doc := [("type", .str "document"), ("createdAt", .time 0)]

/-- The empty store. -/
def emptyStore : Store := ⟨[], [], [], [], [], 0⟩

/-- Claim C5, counterexample: creating a parcel from a payload whose own
`createdAt` is instant 0 while the server clock reads 1, then reading it back,
yields a record in which the caller-supplied `createdAt` is NOT preserved —
so not every caller-supplied field survives with its original value. -/
theorem claim_c5_cex :
    ("createdAt", Val.time 0) ∈ cBody ∧
    getParcel 0 (createParcel cBody 1 emptyStore).1 =
      .doc (setField cBody "createdAt" (.time 1)) ∧
    getField (setField cBody "createdAt" (.time 1)) "createdAt" ≠
      some (.time 0) := by
  decide

/-- Claim C5 (amended): createParcel followed by getParcel on the returned id
yields a record whose `createdAt` is the server-set creation time and in which
every caller-supplied field other than `createdAt` keeps its original value. -/
theorem claim_c5_create_get (body : Doc) (now : Nat) (s : Store)
    (hfresh : ∀ p ∈ s.parcels, p.1 ≠ s.nextId)
    (hnd : (body.map Prod.fst).Nodup) :
    (createParcel body now s).2 = .created s.nextId ∧
    getParcel s.nextId (createParcel body now s).1 =
      .doc (setField body "createdAt" (.time now)) ∧
    getField (setField body "createdAt" (.time now)) "createdAt"
      = some (.time now) ∧
    ∀ k v, (k, v) ∈ body → k ≠ "createdAt" →
      getField (setField body "createdAt" (.time now)) k = some v := by
  refine ⟨rfl, ?_, getField_setField_self _ _ _, ?_⟩
  · simp only [createParcel, getParcel]
    rw [findDoc_append_fresh _ _ _ hfresh]
  · intro k v hkv hk
    rw [getField_setField_ne _ _ _ _ hk]
    exact getField_of_mem_nodup _ _ _ hnd hkv

/-- Claim C10: createParcel stores the server-generated creation time as
`createdAt` even when the payload itself supplies a `createdAt` value — the
spread `{...req.body, createdAt: new Date()}` overrides the caller. -/
theorem claim_c10_createdAt_override (body : Doc) (now : Nat) (s : Store)
    (v : Val) (h : ("createdAt", v) ∈ body) :
    ((createParcel body now s).1).parcels.getLast? =
      some (s.nextId, setField body "createdAt" (.time now)) ∧
    getField (setField body "createdAt" (.time now)) "createdAt"
      = some (.time now) := by
  refine ⟨?_, getField_setField_self _ _ _⟩
  simp [createParcel]

/-- An unpaid pending parcel used as a concrete fixture. -/
def parcelDoc₀ : Doc :=
  [("created_by", .str "a@x.com"), ("payment_status", .str "unpaid"),
   ("delivery_status", .str "pending")]

/-- A pending idle rider fixture. -/
def riderDoc₀ : Doc :=
  [("email", .str "r@x.com"), ("status", .str "pending"),
   ("work_status", .str "idle")]

/-- A user fixture without a `role` field. -/
def userDoc₀ : Doc := [("email", .str "r@x.com")]

/-- A tracking event at instant 5. -/
def evtA : Doc :=
  [("tracking_id", .str "T"), ("status", .str "created"),
   ("timestamp", .time 5)]

/-- A tracking event at instant 2, recorded after `evtA`. -/
def evtB : Doc :=
  [("tracking_id", .str "T"), ("status", .str "picked"),
   ("timestamp", .time 2)]

/-- A fixture store holding one parcel, one rider, one user, two events. -/
def store₀ : Store :=
  ⟨[(1, parcelDoc₀)], [], [userDoc₀], [(2, riderDoc₀)], [evtA, evtB], 3⟩

/-- A creation payload without a `createdAt` field. -/
def wBody : Doc := [("weight", .num 3)]

/-- Witness for C1 at a concrete paid-for parcel. -/
theorem claim_c1_witness :
    parcelField (recordPayment 1 "a@x.com" "A" 50 "tx1" "card" 9 store₀).1 1
      "payment_status" = some (.str "paid") ∧
    paymentDoc 1 "a@x.com" "A" 50 "tx1" "card" 9 ∈
      (recordPayment 1 "a@x.com" "A" 50 "tx1" "card" 9 store₀).1.payments ∧
    getField (paymentDoc 1 "a@x.com" "A" 50 "tx1" "card" 9) "parcelId"
      = some (.oid 1) ∧
    (recordPayment 1 "a@x.com" "A" 50 "tx1" "card" 9 store₀).2.2 =
      [.updateParcel 1, .insertPayment] :=
  claim_c1_recordPayment store₀ 1 "a@x.com" "A" 50 "tx1" "card" 9 parcelDoc₀
    (by decide) (by decide)

/-- Witness for C2 at a concrete parcel and rider. -/
theorem claim_c2_witness :
    parcelField (assignRider 1 2 "Rina" "r@x.com" store₀).1 1
      "delivery_status" = some (.str "rider_assigned") ∧
    parcelField (assignRider 1 2 "Rina" "r@x.com" store₀).1 1
      "assigned_rider_id" = some (.oid 2) ∧
    parcelField (assignRider 1 2 "Rina" "r@x.com" store₀).1 1
      "assigned_rider_email" = some (.str "r@x.com") ∧
    parcelField (assignRider 1 2 "Rina" "r@x.com" store₀).1 1
      "assigned_rider_name" = some (.str "Rina") ∧
    riderField (assignRider 1 2 "Rina" "r@x.com" store₀).1 2 "work_status"
      = some (.str "in_delivery") :=
  claim_c2_assignRider store₀ 1 2 "Rina" "r@x.com" parcelDoc₀ riderDoc₀
    (by decide) (by decide)

/-- Witness for C3 at a concrete parcel moved to in_transit. -/
theorem claim_c3_witness :
    parcelField (updateDeliveryStatus 1 "in_transit" 9 store₀).1 1
      "delivery_status" = some (.str "in_transit") ∧
    parcelField (updateDeliveryStatus 1 "in_transit" 9 store₀).1 1
      "picked_at" = some (.time 9) :=
  ⟨(claim_c3_updateDeliveryStatus store₀ 1 "in_transit" 9 parcelDoc₀
      (by decide)).1,
   (claim_c3_updateDeliveryStatus store₀ 1 "in_transit" 9 parcelDoc₀
      (by decide)).2.1 rfl⟩

/-- Witness for C4 at a concrete rider activation. -/
theorem claim_c4_witness :
    riderField (setRiderStatus 2 "active" "r@x.com" store₀).1 2 "status"
      = some (.str "active") ∧
    userRole (setRiderStatus 2 "active" "r@x.com" store₀).1 "r@x.com"
      = some (.str "rider") ∧
    ((setRiderStatus 2 "pending" "r@x.com" store₀).1).users = store₀.users := by
  have h := claim_c4_setRiderStatus store₀ 2 "r@x.com" riderDoc₀ userDoc₀
    (by decide) (by decide)
  exact ⟨h.1, h.2.1, h.2.2 "pending" (by decide)⟩

/-- Witness for C5 (amended) at a concrete payload. -/
theorem claim_c5_witness :
    (createParcel wBody 7 emptyStore).2 = .created 0 ∧
    getParcel 0 (createParcel wBody 7 emptyStore).1 =
      .doc (setField wBody "createdAt" (.time 7)) ∧
    getField (setField wBody "createdAt" (.time 7)) "createdAt"
      = some (.time 7) ∧
    getField (setField wBody "createdAt" (.time 7)) "weight"
      = some (.num 3) := by
  have h := claim_c5_create_get wBody 7 emptyStore (by decide) (by decide)
  exact ⟨h.1, h.2.1, h.2.2.1, h.2.2.2 "weight" (.num 3) (by decide) (by decide)⟩

/-- Witness for C6: the fixture trail for "T" and the empty trail for "X". -/
theorem claim_c6_witness :
    List.Pairwise timeLE (getTrail "T" store₀) ∧
    List.Perm (getTrail "T" store₀) (matchingEvents "T" store₀) ∧
    getTrail "X" store₀ = [] :=
  ⟨(claim_c6_getTrail "T" store₀).1, (claim_c6_getTrail "T" store₀).2.1,
   (claim_c6_getTrail "X" store₀).2.2 (by decide)⟩

/-- Witness for C7 at an id absent from the fixture store. -/
theorem claim_c7_witness :
    deleteParcel 9 store₀ = (store₀, .notFound "Parcel not found") ∧
    deleteParcel 9 (deleteParcel 9 store₀).1
      = (store₀, .notFound "Parcel not found") :=
  claim_c7_deleteParcel store₀ 9 (by decide)

/-- Witness for C8: the fixture user has no role field, so the answered role
defaults to "user" (matched case-insensitively). -/
theorem claim_c8_witness :
    getRole "R@X.com" store₀ = .roleOk (.str "user") :=
  (claim_c8_getRole "R@X.com" store₀ userDoc₀ (by decide)).1 (by decide)

/-- Witness for C9 at a parcel id absent from the fixture store. -/
theorem claim_c9_witness :
    (recordPayment 7 "a@x.com" "A" 50 "tx2" "card" 9 store₀).2.1 =
      .notFound "Parcel not found or already paid" ∧
    (recordPayment 7 "a@x.com" "A" 50 "tx2" "card" 9 store₀).1.payments =
      store₀.payments :=
  claim_c9_payment_notFound store₀ 7 "a@x.com" "A" 50 "tx2" "card" 9
    (Or.inl (by decide))

/-- Witness for C10 at a payload carrying `createdAt` instant 0 while the
server clock reads 5. -/
theorem claim_c10_witness :
    ((createParcel cBody 5 store₀).1).parcels.getLast? =
      some (store₀.nextId, setField cBody "createdAt" (.time 5)) ∧
    getField (setField cBody "createdAt" (.time 5)) "createdAt"
      = some (.time 5) :=
  claim_c10_createdAt_override cBody 5 store₀ (.time 0) (by decide)

end ParcelPilot
